import Mathlib

/-
Verification development for the CECR dialogue engine
(src/ai_core/dialogue_engine.py).  The single source file defines
`DialogueResponse` and `DialogueEngine.generate_response`; the external
collaborators (personality engine, semantic memory, growth-stage provider,
LLM / TTS services, constant lookup tables) live outside the repository and
are modelled here as explicit inputs in an `Env` record.  All string
operations used by the code (`str.strip`, `str.split("|")`,
`str.startswith`, `in`-substring tests, `str.lower`) are given executable
models below.
-/

/-- Python whitespace test used by `str.strip()` (ASCII whitespace set;
the texts handled by the engine contain no exotic unicode spaces). -/
def isPyWS (c : Char) : Bool :=
  c == ' ' || c == '\t' || c == '\n' || c == '\r' || c == '\x0b' || c == '\x0c'

/-- Strip leading and trailing whitespace from a character list. -/
def stripList (l : List Char) : List Char :=
  ((l.dropWhile isPyWS).reverse.dropWhile isPyWS).reverse

/-- Model of Python `s.strip()`. -/
def pyStrip (s : String) : String := ⟨stripList s.data⟩

/-- Model of Python `s.startswith("[")`. -/
def startsWithBracket (s : String) : Bool := s.data.head? == some '['

/-- Whether `needle` occurs as a contiguous run inside the character list. -/
def subOccurs (needle : List Char) : List Char → Bool
  | [] => needle.isEmpty
  | c :: rest => needle.isPrefixOf (c :: rest) || subOccurs needle rest

/-- Model of the Python substring test `needle in hay`. -/
def containsSub (hay needle : String) : Bool := subOccurs needle.data hay.data

/-- Model of Python `s.lower()` (character-wise lowering; the engine only
tests ASCII needles, on which `Char.toLower` agrees with Python). -/
def pyLower (s : String) : String := ⟨s.data.map Char.toLower⟩

/-- Embeds `DialogueEngine._infer_behavior_tag`
(src/ai_core/dialogue_engine.py lines 114-126). -/
def inferBehaviorTag (text mood : String) : Option String :=
  let textL := pyLower text
  if mood = "angry" ∨ containsSub textL "bad" = true then some "criticism"
  else if mood = "happy" ∨ mood = "excited" ∨ containsSub textL "thanks" = true then
    some "praise"
  else if containsSub textL "joke" = true ∨ containsSub textL "haha" = true then
    some "joke"
  else if mood = "sad" then some "support"
  else none

/-- A record returned by `SemanticMemory.query_memory`: the engine reads
`p["user_text"]`, `p["ai_response"]` and `p.get("mood_tag", "neutral")`. -/
structure MemRecord where
  user_text : String
  ai_response : String
  mood_tag : Option String
deriving DecidableEq

/-- An entry of the `valid_responses` list built at lines 184-194. -/
structure ValidResp where
  user : String
  ai : String
  mood : String
deriving DecidableEq

/-- Embeds the filtering loop at lines 184-194: keep records whose stripped
reply is non-empty, longer than 2 characters, does not start with "[" and
whose stripped user text is non-empty. -/
def filterValid : List MemRecord → List ValidResp
  | [] => []
  | p :: rest =>
    let response := pyStrip p.ai_response
    let u := pyStrip p.user_text
    if response ≠ "" ∧ 2 < response.length ∧ startsWithBracket response = false ∧ u ≠ "" then
      ⟨u, response, p.mood_tag.getD "neutral"⟩ :: filterValid rest
    else
      filterValid rest

/-- Embeds the narrative construction at lines 196-204: one clause for the
first valid record, a second clause joined with the connective when a second
valid record exists. -/
def narrativePart : List ValidResp → String
  | [] => ""
  | [v] => "用户说\x27" ++ v.user ++ "\x27时，我回复\x27" ++ v.ai ++ "\x27"
  | v0 :: v1 :: _ =>
    "用户说\x27" ++ v0.user ++ "\x27时，我回复\x27" ++ v0.ai ++ "\x27" ++
      "。另外，当用户说\x27" ++ v1.user ++ "\x27时，我回复\x27" ++ v1.ai ++ "\x27"

/-- One step of building the Python dict `mood_counts`
(`mood_counts[mood] = mood_counts.get(mood, 0) + 1`): increment an existing
key in place, otherwise append the new key, preserving insertion order. -/
def bump : List (String × Nat) → String → List (String × Nat)
  | [], m => [(m, 1)]
  | (k, n) :: rest, m =>
    if k = m then (k, n + 1) :: rest else (k, n) :: bump rest m

/-- The insertion-ordered frequency table of lines 207-210. -/
def tally (ms : List String) : List (String × Nat) := ms.foldl bump []

/-- Embeds `max(mood_counts.items(), key=lambda x: x[1])[0]` (line 213):
Python `max` keeps the first item and replaces it only on a strictly larger
key, so ties are broken towards earlier insertion. -/
def pickMax : List (String × Nat) → Option String
  | [] => none
  | x :: xs => some ((xs.foldl (fun best y => if best.2 < y.2 then y else best) x).1)

/-- Embeds lines 206-215: the dominant-mood clause appended to the memory
summary when the picked dominant mood is not "neutral". -/
def moodClause (valid : List ValidResp) : String :=
  match pickMax (tally (valid.map (fun v => v.mood))) with
  | none => ""
  | some d => if d ≠ "neutral" then "。这些对话中用户情绪主要是" ++ d else ""

/-- Embeds the whole `past_summary` computation (lines 182-219). -/
def pastSummary (past : List MemRecord) : String :=
  if past = [] then ""
  else
    let valid := filterValid past
    if valid = [] then "" else narrativePart valid ++ moodClause valid

/-- The value held by the local variable `user_text` after the filtering
loop: the loop at lines 185-194 rebinds `user_text = p["user_text"].strip()`
for every queried record, shadowing the incoming parameter, so after a
non-empty query result the variable holds the stripped user text of the
last queried record. -/
def effUserText (user_text : String) (past : List MemRecord) : String :=
  match past.getLast? with
  | none => user_text
  | some p => pyStrip p.user_text

/-- Embeds the stage-gated baseline response (lines 221-229).  `u` is the
value of the local variable `user_text` at that point. -/
def baseResp (stage style past_summary u : String) : String :=
  if stage = "sprout" then (if u ≠ "" then "呀呀" else "咿呀")
  else if stage = "enlighten" then "你好"
  else if stage = "resonate" then "[" ++ style ++ "] " ++ u ++ "? 我在听哦"
  else "[" ++ style ++ "] Based on our chats: " ++ past_summary ++ " | " ++ u

/-- Outcome of one invocation of the configured generation backend
(lines 308-338): the call either raises (any exception) or returns a value
that may be `None` or a string. -/
inductive LLMOutcome where
  | raised : LLMOutcome
  | returned : Option String → LLMOutcome
deriving DecidableEq

/-- Python truthiness of `self.llm_url` / `self.tts_url` (`None` and the
empty string are both falsy). -/
def urlConfigured : Option String → Bool
  | none => false
  | some u => u != ""

/-- Embeds lines 285-351: the final response text.  The `try`/`except`
block contains every backend fault, so the computation is total and the
text falls back to the baseline on a raised fault, a `None` result or a
result that is empty after stripping. -/
def finalText (base : String) (llm_url : Option String) (out : LLMOutcome) : String :=
  if urlConfigured llm_url = true then
    match out with
    | .raised => base
    | .returned none => base
    | .returned (some s) => if s ≠ "" ∧ pyStrip s ≠ "" then pyStrip s else base
  else base

/-- Model of Python `s.split("|")` on the character list: splitting on a
single-character separator, keeping empty pieces (`"".split("|") == [""]`). -/
def splitPipe : List Char → List (List Char)
  | [] => [[]]
  | c :: rest =>
    match splitPipe rest with
    | [] => [[]]
    | cur :: rs => if c = '|' then [] :: cur :: rs else (c :: cur) :: rs

/-- Model of Python `action_raw.split("|")`. -/
def pySplitPipe (s : String) : List String := (splitPipe s.data).map (fun l => ⟨l⟩)

/-- Embeds the pairing loop at lines 375-381: walk the split parts two at a
time, joining code and description with "|"; a trailing unpaired part is
kept stripped. -/
def parsePairs : List String → List String
  | [] => []
  | [a] => [pyStrip a]
  | a :: b :: rest => (pyStrip a ++ "|" ++ pyStrip b) :: parsePairs rest

/-- Embeds line 365: the lookup key is the mood tag when it is a key of
`FACE_ANIMATION_MAP`, otherwise "happy". -/
def moodKey (faceMap : String → Option (String × String)) (mood : String) : String :=
  if (faceMap mood).isSome = true then mood else "happy"

/-- The default expression pair of line 366. -/
def defaultFaceAnim : String × String := ("E000:平静表情", "自然状态、轻微呼吸动作")

/-- Embeds lines 366-367: expression string derived from the face map. -/
def expressionOf (faceMap : String → Option (String × String)) (key : String) : String :=
  let fa := (faceMap key).getD defaultFaceAnim
  pyStrip (fa.1 ++ " | " ++ fa.2)

/-- Embeds line 370: `ACTION_MAP.get(mood_key, "A000:breathing|轻微呼吸动作")`. -/
def actionRaw (actionMap : String → Option String) (key : String) : String :=
  (actionMap key).getD "A000:breathing|轻微呼吸动作"

/-- The mood-derived action list (lines 370-381). -/
def moodActions (actionMap : String → Option String) (key : String) : List String :=
  parsePairs (pySplitPipe (actionRaw actionMap key))

/-- Embeds lines 383-391: `touch_actions.get(touch_zone, "A100:hug|拥抱动作")`. -/
def touchAction (zone : Option Int) : String :=
  match zone with
  | none => "A100:hug|拥抱动作"
  | some z =>
    if z = 0 then "A100:hug|拥抱动作"
    else if z = 1 then "A101:pat|轻拍动作"
    else if z = 2 then "A102:tickle|挠痒动作"
    else "A100:hug|拥抱动作"

/-- The full action list (lines 370-391): mood-derived actions, with the
zone-specific touch action appended when `touched` is set. -/
def actionList (actionMap : String → Option String) (key : String)
    (touched : Bool) (zone : Option Int) : List String :=
  if touched then moodActions actionMap key ++ [touchAction zone]
  else moodActions actionMap key

/-- Embeds lines 396-399: the audio URL, with the "n/a" sentinel replacing
a missing TTS service or an empty synthesis result. -/
def audioOf (tts_url : Option String) (ttsResult : String) : String :=
  let audio0 := if urlConfigured tts_url = true then ttsResult else ""
  if audio0 = "" then "n/a" else audio0

/-- The arguments of one `SemanticMemory.add_memory` call (lines 353-361). -/
structure MemWrite where
  user_text : String
  ai_response : String
  mood_tag : String
  user_id : String
  touched : Bool
  touch_zone : Option Int
deriving DecidableEq

/-- Structured output of the dialogue engine (lines 50-72). -/
structure DialogueResponse where
  text : String
  audio : String
  action : List String
  expression : String
deriving DecidableEq

/-- Per-request snapshot of the external collaborators consumed by
`generate_response`: the refreshed growth stage, the post-update
personality style, the memory query result, the configured service URLs,
the backend outcomes and the two constant lookup tables. -/
structure Env where
  stage : String
  style : String
  past : List MemRecord
  llm_url : Option String
  llmOutcome : LLMOutcome
  tts_url : Option String
  ttsResult : String
  faceMap : String → Option (String × String)
  actionMap : String → Option String

/-- The observable effect of one `generate_response` call: the returned
response and the list of memory writes performed (the code calls
`add_memory` exactly once, unconditionally). -/
structure GenResult where
  response : DialogueResponse
  writes : List MemWrite

/-- Embeds `DialogueEngine.generate_response`
(src/ai_core/dialogue_engine.py lines 128-408).  Personality updates
(lines 164-169) mutate an external collaborator and are not observable in
the response; the style read back after them is `env.style`.  The local
variable `user_text` is shadowed by the filtering loop, which `effUserText`
reproduces. -/
def generate_response (env : Env) (user_text : String) (mood_tag : String)
    (user_id : String) (touched : Bool) (touch_zone : Option Int) : GenResult :=
  let past_summary := pastSummary env.past
  let u := effUserText user_text env.past
  let base_resp := baseResp env.stage env.style past_summary u
  let response := finalText base_resp env.llm_url env.llmOutcome
  let write : MemWrite := ⟨u, response, mood_tag, user_id, touched, touch_zone⟩
  let mkey := moodKey env.faceMap mood_tag
  let expression := expressionOf env.faceMap mkey
  let action := actionList env.actionMap mkey touched touch_zone
  let audio := audioOf env.tts_url env.ttsResult
  { response := ⟨response, audio, action, expression⟩, writes := [write] }

/-- Specification-level reading of the dominant-mood rule actually
implemented: scanning the surviving moods in order, the first one whose
frequency is maximal among all surviving moods. -/
def firstMaxMood (ms : List String) : Option String :=
  ms.find? (fun m => ms.all (fun m2 => decide (ms.count m2 ≤ ms.count m)))

/-- A concrete environment whose lookup tables only know the "happy"
entry. -/
def envHappyOnly : Env :=
  ⟨"sprout", "s", [], none, .returned none, none, "",
    fun k => if k = "happy" then some ("E001:微笑", "开心状态") else none,
    fun k => if k = "happy" then some "A001:nod|点头动作" else none⟩

/-- A concrete memory query result: five records of which the second
(empty user text) and the fourth (bracketed placeholder reply) are
filtered out, leaving three survivors. -/
def c7past : List MemRecord :=
  [⟨"早上好", "你好呀朋友", some "happy"⟩,
    ⟨"", "ignored", none⟩,
    ⟨"天气", "晴天真好", some "happy"⟩,
    ⟨"再见", "[placeholder]", some "sad"⟩,
    ⟨"吃饭", "好的马上", some "happy"⟩]

/-- The keys of the insertion-ordered tally: each mood in order of first
occurrence. -/
def firstKeys : List String → List String
  | [] => []
  | m :: rest => m :: (firstKeys rest).filter (fun k => k != m)

/-- First-match association lookup in the tally. -/
def lookupCount : List (String × Nat) → String → Option Nat
  | [], _ => none
  | (k, n) :: rest, m => if k = m then some n else lookupCount rest m

/-- The fold underlying `pickMax`: Python `max` keeps the current best
and replaces it only on a strictly larger key. -/
def foldMax (x : String × Nat) (xs : List (String × Nat)) : String × Nat :=
  xs.foldl (fun best y => if best.2 < y.2 then y else best) x

/-- The two surviving records behind the C8 tie counterexample: moods
"sad" and "neutral", each occurring once. -/
def c8past : List MemRecord :=
  [⟨"aaa", "hello there", some "sad"⟩, ⟨"bbb", "nice day!", some "neutral"⟩]

/-- A string is empty exactly when its character list is. -/
theorem str_eq_empty_iff (s : String) : s = "" ↔ s.data = [] := by
  constructor
  · intro h
    rw [h]
  · intro h
    cases s with
    | mk d =>
      cases h
      rfl

/-- Appending on the left of a string with a non-empty character list gives
a non-empty string. -/
theorem append_ne_empty_left (s t : String) (h : s.data ≠ []) : s ++ t ≠ "" := by
  intro hc
  rw [str_eq_empty_iff, String.data_append] at hc
  rcases List.append_eq_nil.mp hc with ⟨h1, _⟩
  exact h h1

/-- An element not satisfying the predicate survives `dropWhile`. -/
theorem mem_dropWhile_of_mem {c : Char} {p : Char → Bool} :
    ∀ {l : List Char}, c ∈ l → p c = false → c ∈ l.dropWhile p := by
  intro l
  induction l with
  | nil => intro h _; cases h
  | cons a t ih =>
    intro hmem hpc
    by_cases ha : p a = true
    · rw [List.dropWhile_cons_of_pos ha]
      rcases List.mem_cons.mp hmem with rfl | ht
      · rw [hpc] at ha; cases ha
      · exact ih ht hpc
    · rw [List.dropWhile_cons_of_neg ha]
      exact hmem

/-- A list containing a non-whitespace character strips to a non-empty
list. -/
theorem stripList_ne_nil {c : Char} {l : List Char}
    (hmem : c ∈ l) (hws : isPyWS c = false) : stripList l ≠ [] := by
  unfold stripList
  intro hc
  have h1 : c ∈ l.dropWhile isPyWS := mem_dropWhile_of_mem hmem hws
  have h2 : c ∈ (l.dropWhile isPyWS).reverse := List.mem_reverse.mpr h1
  have h3 : c ∈ (l.dropWhile isPyWS).reverse.dropWhile isPyWS :=
    mem_dropWhile_of_mem h2 hws
  have h4 : c ∈ ((l.dropWhile isPyWS).reverse.dropWhile isPyWS).reverse :=
    List.mem_reverse.mpr h3
  rw [hc] at h4
  cases h4

/-- Stripping a string that contains a non-whitespace character gives a
non-empty string. -/
theorem pyStrip_ne_empty {c : Char} {s : String}
    (hmem : c ∈ s.data) (hws : isPyWS c = false) : pyStrip s ≠ "" := by
  intro hc
  rw [str_eq_empty_iff] at hc
  exact stripList_ne_nil hmem hws hc

/-- The expression string always contains the separator bar, hence survives
the final `strip`. -/
theorem expressionOf_ne_empty (faceMap : String → Option (String × String))
    (key : String) : expressionOf faceMap key ≠ "" := by
  unfold expressionOf
  apply pyStrip_ne_empty (c := '|')
  · rw [String.data_append, String.data_append]
    apply List.mem_append_left
    apply List.mem_append_right
    simp [String.data]
  · rfl

/-- `splitPipe` never returns the empty list. -/
theorem splitPipe_ne_nil : ∀ l : List Char, splitPipe l ≠ [] := by
  intro l
  cases l with
  | nil => simp [splitPipe]
  | cons c rest =>
    unfold splitPipe
    cases h : splitPipe rest with
    | nil => simp
    | cons cur rs =>
      by_cases hc : c = '|' <;> simp [hc]

/-- Splitting a string on the pipe yields at least one piece. -/
theorem pySplitPipe_ne_nil (s : String) : pySplitPipe s ≠ [] := by
  unfold pySplitPipe
  intro hc
  exact splitPipe_ne_nil s.data (List.map_eq_nil_iff.mp hc)

/-- Pairing up a non-empty list of pieces yields a non-empty action list. -/
theorem parsePairs_ne_nil : ∀ l : List String, l ≠ [] → parsePairs l ≠ [] := by
  intro l hne
  match l with
  | [] => exact absurd rfl hne
  | [a] => simp [parsePairs]
  | a :: b :: rest => simp [parsePairs]

/-- The mood-derived action list is never empty. -/
theorem moodActions_ne_nil (actionMap : String → Option String) (key : String) :
    moodActions actionMap key ≠ [] := by
  unfold moodActions
  exact parsePairs_ne_nil _ (pySplitPipe_ne_nil _)

/-- The stage-gated baseline reply is never the empty string. -/
theorem baseResp_ne_empty (stage style past_summary u : String) :
    baseResp stage style past_summary u ≠ "" := by
  unfold baseResp
  split
  · split <;> decide
  · split
    · decide
    · split
      · exact append_ne_empty_left _ _ (by
          rw [String.data_append, String.data_append]
          simp [String.data])
      · exact append_ne_empty_left _ _ (by
          rw [String.data_append, String.data_append, String.data_append]
          simp [String.data])

/-- The final text is non-empty whenever the baseline is. -/
theorem finalText_ne_empty (base : String) (llm_url : Option String)
    (out : LLMOutcome) (hb : base ≠ "") : finalText base llm_url out ≠ "" := by
  unfold finalText
  by_cases hc : urlConfigured llm_url = true
  · rw [if_pos hc]
    cases out with
    | raised => exact hb
    | returned r =>
      cases r with
      | none => exact hb
      | some s =>
        show (if s ≠ "" ∧ pyStrip s ≠ "" then pyStrip s else base) ≠ ""
        by_cases h2 : s ≠ "" ∧ pyStrip s ≠ ""
        · rw [if_pos h2]
          exact h2.2
        · rw [if_neg h2]
          exact hb
  · rw [if_neg hc]
    exact hb

/-- The audio field is never empty. -/
theorem audioOf_ne_empty (tts_url : Option String) (ttsResult : String) :
    audioOf tts_url ttsResult ≠ "" := by
  simp only [audioOf]
  split
  · split
    · decide
    · next h => exact h
  · decide

/-- The assembled action list is never empty. -/
theorem actionList_ne_nil (actionMap : String → Option String) (key : String)
    (touched : Bool) (zone : Option Int) :
    actionList actionMap key touched zone ≠ [] := by
  unfold actionList
  split
  · intro hc
    rcases List.append_eq_nil.mp hc with ⟨h1, _⟩
    exact moodActions_ne_nil actionMap key h1
  · exact moodActions_ne_nil actionMap key

/-- Unfolding equation: the response bundle assembled by
`generate_response`. -/
theorem generate_response_response (env : Env) (user_text mood_tag user_id : String)
    (touched : Bool) (touch_zone : Option Int) :
    (generate_response env user_text mood_tag user_id touched touch_zone).response =
      ⟨finalText (baseResp env.stage env.style (pastSummary env.past)
          (effUserText user_text env.past)) env.llm_url env.llmOutcome,
        audioOf env.tts_url env.ttsResult,
        actionList env.actionMap (moodKey env.faceMap mood_tag) touched touch_zone,
        expressionOf env.faceMap (moodKey env.faceMap mood_tag)⟩ := rfl

/-- Unfolding equation: the single memory write performed by
`generate_response`. -/
theorem generate_response_writes (env : Env) (user_text mood_tag user_id : String)
    (touched : Bool) (touch_zone : Option Int) :
    (generate_response env user_text mood_tag user_id touched touch_zone).writes =
      [⟨effUserText user_text env.past,
        finalText (baseResp env.stage env.style (pastSummary env.past)
          (effUserText user_text env.past)) env.llm_url env.llmOutcome,
        mood_tag, user_id, touched, touch_zone⟩] := rfl

/-- C1: for every call to `generate_response` with any user text, mood tag,
user id, touch flag and touch zone (and any state of the external
collaborators), the returned `DialogueResponse` has all four fields
non-empty: the text is a non-empty string, the audio is a non-empty string,
the action list is non-empty, and the expression is a non-empty string. -/
theorem c1_response_fields_nonempty (env : Env) (user_text mood_tag user_id : String)
    (touched : Bool) (touch_zone : Option Int) :
    (generate_response env user_text mood_tag user_id touched touch_zone).response.text ≠ "" ∧
    (generate_response env user_text mood_tag user_id touched touch_zone).response.audio ≠ "" ∧
    (generate_response env user_text mood_tag user_id touched touch_zone).response.action ≠ [] ∧
    (generate_response env user_text mood_tag user_id touched touch_zone).response.expression ≠ "" := by
  rw [generate_response_response]
  exact ⟨finalText_ne_empty _ _ _ (baseResp_ne_empty _ _ _ _),
    audioOf_ne_empty _ _, actionList_ne_nil _ _ _ _, expressionOf_ne_empty _ _⟩

/-- C2: whenever a generation backend is configured (a non-empty URL) and
its invocation raises a fault, returns `None`, or returns text that is
empty after stripping, `generate_response` still returns normally (the
embedding is a total function, mirroring the `try`/`except` containment)
and the final response text is exactly the stage baseline computed in the
same request. -/
theorem c2_backend_failure_falls_back_to_baseline (env : Env)
    (user_text mood_tag user_id : String) (touched : Bool) (touch_zone : Option Int)
    (url : String) (hurl : env.llm_url = some url) (hne : url ≠ "")
    (hfail : env.llmOutcome = .raised ∨ env.llmOutcome = .returned none ∨
      ∃ s, env.llmOutcome = .returned (some s) ∧ pyStrip s = "") :
    (generate_response env user_text mood_tag user_id touched touch_zone).response.text =
      baseResp env.stage env.style (pastSummary env.past) (effUserText user_text env.past) := by
  rw [generate_response_response]
  show finalText _ _ _ = _
  unfold finalText
  have hcfg : urlConfigured env.llm_url = true := by
    rw [hurl]
    simpa [urlConfigured] using hne
  rw [if_pos hcfg]
  rcases hfail with h | h | ⟨s, h, hs⟩
  · rw [h]
  · rw [h]
  · rw [h]
    show (if s ≠ "" ∧ pyStrip s ≠ "" then pyStrip s else _) = _
    rw [if_neg (fun hcon => hcon.2 hs)]

/-- Closed witness for C2 at a concrete request: backend configured, call
raises, baseline is the sprout babble. -/
theorem c2_backend_failure_witness :
    (generate_response ⟨"sprout", "阳光", [], some "qwen", .raised, none, "",
        fun _ => none, fun _ => none⟩ "hello" "neutral" "u1" false none).response.text =
      baseResp "sprout" "阳光" (pastSummary []) (effUserText "hello" []) :=
  c2_backend_failure_falls_back_to_baseline
    ⟨"sprout", "阳光", [], some "qwen", .raised, none, "", fun _ => none, fun _ => none⟩
    "hello" "neutral" "u1" false none "qwen" rfl (by decide) (Or.inl rfl)

/-- C10: for every stage value other than "sprout", "enlighten" and
"resonate" — including the empty or an unrecognized stage string — the
baseline reply is the awaken-style composite embedding the personality
style, the memory summary and the user text; and `generate_response`
consumes the provider's stage value as-is (no default substituted at
request time), so with no backend configured the final text is exactly
that baseline. -/
theorem c10_unrecognized_stage_awaken_baseline :
    (∀ stage style psum u, stage ≠ "sprout" → stage ≠ "enlighten" → stage ≠ "resonate" →
      baseResp stage style psum u =
        "[" ++ style ++ "] Based on our chats: " ++ psum ++ " | " ++ u) ∧
    (∀ (env : Env) (user_text mood_tag user_id : String) (touched : Bool)
        (touch_zone : Option Int), env.llm_url = none →
      (generate_response env user_text mood_tag user_id touched touch_zone).response.text =
        baseResp env.stage env.style (pastSummary env.past) (effUserText user_text env.past)) := by
  constructor
  · intro stage style psum u h1 h2 h3
    unfold baseResp
    rw [if_neg h1, if_neg h2, if_neg h3]
  · intro env user_text mood_tag user_id touched touch_zone hnone
    rw [generate_response_response]
    show finalText _ _ _ = _
    unfold finalText
    rw [hnone]
    rfl

/-- Closed witness for C10: the empty stage string (an unrecognized
provider value) selects the awaken-style composite, and the text of a
backend-less request is the baseline. -/
theorem c10_unrecognized_stage_witness :
    baseResp "" "风格" "mem" "hi" =
      "[" ++ "风格" ++ "] Based on our chats: " ++ "mem" ++ " | " ++ "hi" ∧
    (generate_response ⟨"", "风格", [], none, .returned none, none, "",
        fun _ => none, fun _ => none⟩ "hi" "neutral" "u" false none).response.text =
      baseResp "" "风格" (pastSummary []) (effUserText "hi" []) :=
  ⟨c10_unrecognized_stage_awaken_baseline.1 "" "风格" "mem" "hi"
      (by decide) (by decide) (by decide),
    c10_unrecognized_stage_awaken_baseline.2
      ⟨"", "风格", [], none, .returned none, none, "", fun _ => none, fun _ => none⟩
      "hi" "neutral" "u" false none rfl⟩

/-- C5: with `touched = true` the action list is the mood-derived list with
exactly one touch-specific action appended at the end, chosen by the zone
(0 hug, 1 pat, 2 tickle, any other or missing zone hug); the append never
replaces a mood-derived action, and with `touched = false` no touch action
is appended. -/
theorem c5_touch_appends_single_zone_action :
    (∀ (env : Env) (user_text mood_tag user_id : String) (touch_zone : Option Int),
      (generate_response env user_text mood_tag user_id true touch_zone).response.action =
        moodActions env.actionMap (moodKey env.faceMap mood_tag) ++ [touchAction touch_zone]) ∧
    (∀ (env : Env) (user_text mood_tag user_id : String) (touch_zone : Option Int),
      (generate_response env user_text mood_tag user_id false touch_zone).response.action =
        moodActions env.actionMap (moodKey env.faceMap mood_tag)) ∧
    touchAction (some 0) = "A100:hug|拥抱动作" ∧
    touchAction (some 1) = "A101:pat|轻拍动作" ∧
    touchAction (some 2) = "A102:tickle|挠痒动作" ∧
    touchAction none = "A100:hug|拥抱动作" ∧
    (∀ z : Int, z ≠ 0 → z ≠ 1 → z ≠ 2 → touchAction (some z) = "A100:hug|拥抱动作") := by
  refine ⟨?_, ?_, rfl, rfl, rfl, rfl, ?_⟩
  · intro env user_text mood_tag user_id touch_zone
    rw [generate_response_response]
    rfl
  · intro env user_text mood_tag user_id touch_zone
    rw [generate_response_response]
    rfl
  · intro z h0 h1 h2
    show (if z = 0 then "A100:hug|拥抱动作"
      else if z = 1 then "A101:pat|轻拍动作"
      else if z = 2 then "A102:tickle|挠痒动作" else "A100:hug|拥抱动作") = "A100:hug|拥抱动作"
    rw [if_neg h0, if_neg h1, if_neg h2]

/-- Closed witness for C5: an unrecognized zone defaults to the hug
action. -/
theorem c5_touch_witness : touchAction (some 7) = "A100:hug|拥抱动作" :=
  c5_touch_appends_single_zone_action.2.2.2.2.2.2 7 (by decide) (by decide) (by decide)

/-- C6: when the mood tag is not a key of the expression table, both the
expression and the action lookup use the "happy" entry (the lookup key
becomes "happy"); when the mood tag is a key, its own entry is used. -/
theorem c6_mood_fallback_to_happy :
    (∀ (env : Env) (user_text mood_tag user_id : String) (touched : Bool)
        (touch_zone : Option Int), env.faceMap mood_tag = none →
      (generate_response env user_text mood_tag user_id touched touch_zone).response.expression =
        expressionOf env.faceMap "happy" ∧
      (generate_response env user_text mood_tag user_id touched touch_zone).response.action =
        actionList env.actionMap "happy" touched touch_zone) ∧
    (∀ (env : Env) (user_text mood_tag user_id : String) (touched : Bool)
        (touch_zone : Option Int) (fa : String × String), env.faceMap mood_tag = some fa →
      (generate_response env user_text mood_tag user_id touched touch_zone).response.expression =
        pyStrip (fa.1 ++ " | " ++ fa.2) ∧
      (generate_response env user_text mood_tag user_id touched touch_zone).response.action =
        actionList env.actionMap mood_tag touched touch_zone) := by
  have hkey_none : ∀ (fm : String → Option (String × String)) (m : String),
      fm m = none → moodKey fm m = "happy" := by
    intro fm m h
    unfold moodKey
    rw [h]
    rfl
  have hkey_some : ∀ (fm : String → Option (String × String)) (m : String)
      (fa : String × String), fm m = some fa → moodKey fm m = m := by
    intro fm m fa h
    unfold moodKey
    rw [h]
    rfl
  constructor
  · intro env user_text mood_tag user_id touched touch_zone h
    rw [generate_response_response]
    constructor
    · show expressionOf env.faceMap (moodKey env.faceMap mood_tag) = _
      rw [hkey_none env.faceMap mood_tag h]
    · show actionList env.actionMap (moodKey env.faceMap mood_tag) touched touch_zone = _
      rw [hkey_none env.faceMap mood_tag h]
  · intro env user_text mood_tag user_id touched touch_zone fa h
    rw [generate_response_response]
    constructor
    · show expressionOf env.faceMap (moodKey env.faceMap mood_tag) = _
      rw [hkey_some env.faceMap mood_tag fa h]
      unfold expressionOf
      rw [h]
      rfl
    · show actionList env.actionMap (moodKey env.faceMap mood_tag) touched touch_zone = _
      rw [hkey_some env.faceMap mood_tag fa h]

/-- Closed witness for C6: an unknown mood tag falls back to the "happy"
entry of both tables. -/
theorem c6_mood_fallback_witness :
    (generate_response envHappyOnly "t" "weird" "u" false none).response.expression =
      expressionOf envHappyOnly.faceMap "happy" ∧
    (generate_response envHappyOnly "t" "weird" "u" false none).response.action =
      actionList envHappyOnly.actionMap "happy" false none :=
  c6_mood_fallback_to_happy.1 envHappyOnly "t" "weird" "u" false none (by decide)

/-- C4: the behavior-tag inference checks its rules in priority order with
the negative rule first: mood "angry" or a lowercased text containing "bad"
gives criticism (so a text containing both "bad" and "thanks" with mood
"happy" still gives criticism, and mood "angry" gives criticism regardless
of the text); otherwise mood "happy"/"excited" or text containing "thanks"
gives praise; otherwise text containing "joke" or "haha" gives joke;
otherwise mood "sad" gives support; otherwise no tag. -/
theorem c4_behavior_tag_priority (text mood : String) :
    ((mood = "angry" ∨ containsSub (pyLower text) "bad" = true) →
      inferBehaviorTag text mood = some "criticism") ∧
    (mood ≠ "angry" → containsSub (pyLower text) "bad" = false →
      (mood = "happy" ∨ mood = "excited" ∨ containsSub (pyLower text) "thanks" = true) →
      inferBehaviorTag text mood = some "praise") ∧
    (mood ≠ "angry" → containsSub (pyLower text) "bad" = false →
      mood ≠ "happy" → mood ≠ "excited" → containsSub (pyLower text) "thanks" = false →
      (containsSub (pyLower text) "joke" = true ∨ containsSub (pyLower text) "haha" = true) →
      inferBehaviorTag text mood = some "joke") ∧
    (mood ≠ "angry" → containsSub (pyLower text) "bad" = false →
      mood ≠ "happy" → mood ≠ "excited" → containsSub (pyLower text) "thanks" = false →
      containsSub (pyLower text) "joke" = false → containsSub (pyLower text) "haha" = false →
      mood = "sad" → inferBehaviorTag text mood = some "support") ∧
    (mood ≠ "angry" → containsSub (pyLower text) "bad" = false →
      mood ≠ "happy" → mood ≠ "excited" → containsSub (pyLower text) "thanks" = false →
      containsSub (pyLower text) "joke" = false → containsSub (pyLower text) "haha" = false →
      mood ≠ "sad" → inferBehaviorTag text mood = none) := by
  unfold inferBehaviorTag
  refine ⟨?_, ?_, ?_, ?_, ?_⟩
  · intro h
    rw [if_pos h]
  · intro h1 h2 h3
    rw [if_neg, if_pos h3]
    rintro (hc | hc)
    · exact h1 hc
    · rw [h2] at hc
      cases hc
  · intro h1 h2 h3 h4 h5 h6
    rw [if_neg, if_neg, if_pos h6]
    · rintro (hc | hc | hc)
      · exact h3 hc
      · exact h4 hc
      · rw [h5] at hc
        cases hc
    · rintro (hc | hc)
      · exact h1 hc
      · rw [h2] at hc
        cases hc
  · intro h1 h2 h3 h4 h5 h6 h7 h8
    rw [if_neg, if_neg, if_neg, if_pos h8]
    · rintro (hc | hc)
      · rw [h6] at hc
        cases hc
      · rw [h7] at hc
        cases hc
    · rintro (hc | hc | hc)
      · exact h3 hc
      · exact h4 hc
      · rw [h5] at hc
        cases hc
    · rintro (hc | hc)
      · exact h1 hc
      · rw [h2] at hc
        cases hc
  · intro h1 h2 h3 h4 h5 h6 h7 h8
    rw [if_neg, if_neg, if_neg, if_neg h8]
    · rintro (hc | hc)
      · rw [h6] at hc
        cases hc
      · rw [h7] at hc
        cases hc
    · rintro (hc | hc | hc)
      · exact h3 hc
      · exact h4 hc
      · rw [h5] at hc
        cases hc
    · rintro (hc | hc)
      · exact h1 hc
      · rw [h2] at hc
        cases hc

/-- Closed witness for C4: a text containing both "bad" and "thanks" with
mood "happy" is still tagged as criticism. -/
theorem c4_behavior_tag_witness :
    inferBehaviorTag "That was bad, but thanks" "happy" = some "criticism" :=
  (c4_behavior_tag_priority "That was bad, but thanks" "happy").1 (Or.inr (by decide))

/-- C3 evaluation at a failing input: a request with incoming user text
"hello" whose memory query returned one earlier record with user text
" hi " writes exactly one record, carrying the final response text, mood,
user id, touch flag and touch zone — but its stored user text is "hi", the
stripped user text of the queried record, because the filtering loop at
lines 185-194 rebinds the `user_text` parameter before `add_memory` reads
it at line 354. -/
theorem c3_memory_write_shadowed_user_text :
    (generate_response ⟨"sprout", "s", [⟨" hi ", "ok then!", some "neutral"⟩], none,
        .returned none, none, "", fun _ => none, fun _ => none⟩
      "hello" "neutral" "u1" false none).writes =
      [⟨"hi", "呀呀", "neutral", "u1", false, none⟩] ∧ "hi" ≠ "hello" :=
  ⟨by decide, by decide⟩

/-- The summary splits on whether any record survived the filter. -/
theorem pastSummary_eq (past : List MemRecord) :
    pastSummary past = if filterValid past = [] then ""
      else narrativePart (filterValid past) ++ moodClause (filterValid past) := by
  cases past with
  | nil => rfl
  | cons p rest =>
    unfold pastSummary
    rw [if_neg (List.cons_ne_nil p rest)]

/-- C7: the summary is built only from records surviving the filter, whose
condition is: stripped reply non-empty, longer than 2 characters, not
starting with "[", and stripped user text non-empty.  Zero survivors give
the empty summary, and the narrative clauses reference exactly the first
surviving record and, when present, the second — any survivors beyond the
second influence only the appended mood clause. -/
theorem c7_summary_first_two_survivors :
    (∀ past : List MemRecord, filterValid past =
      past.filterMap (fun p =>
        if pyStrip p.ai_response ≠ "" ∧ 2 < (pyStrip p.ai_response).length ∧
            startsWithBracket (pyStrip p.ai_response) = false ∧ pyStrip p.user_text ≠ "" then
          some ⟨pyStrip p.user_text, pyStrip p.ai_response, p.mood_tag.getD "neutral"⟩
        else none)) ∧
    (∀ past : List MemRecord, filterValid past = [] → pastSummary past = "") ∧
    (∀ (past : List MemRecord) (v0 : ValidResp), filterValid past = [v0] →
      pastSummary past =
        "用户说\x27" ++ v0.user ++ "\x27时，我回复\x27" ++ v0.ai ++ "\x27" ++
          moodClause [v0]) ∧
    (∀ (past : List MemRecord) (v0 v1 : ValidResp) (rest : List ValidResp),
      filterValid past = v0 :: v1 :: rest →
      pastSummary past =
        "用户说\x27" ++ v0.user ++ "\x27时，我回复\x27" ++ v0.ai ++ "\x27" ++
          "。另外，当用户说\x27" ++ v1.user ++ "\x27时，我回复\x27" ++ v1.ai ++ "\x27" ++
          moodClause (v0 :: v1 :: rest)) := by
  refine ⟨?_, ?_, ?_, ?_⟩
  · intro past
    induction past with
    | nil => rfl
    | cons p rest ih =>
      by_cases h : pyStrip p.ai_response ≠ "" ∧ 2 < (pyStrip p.ai_response).length ∧
          startsWithBracket (pyStrip p.ai_response) = false ∧ pyStrip p.user_text ≠ ""
      · simp only [filterValid, List.filterMap_cons, if_pos h, ih]
      · simp only [filterValid, List.filterMap_cons, if_neg h, ih]
  · intro past h
    rw [pastSummary_eq, h]
    rfl
  · intro past v0 h
    rw [pastSummary_eq, h, if_neg (List.cons_ne_nil v0 [])]
    rfl
  · intro past v0 v1 rest h
    rw [pastSummary_eq, h, if_neg (List.cons_ne_nil v0 (v1 :: rest))]
    rfl

/-- Closed witness for C7: with three survivors the narrative clauses
reference exactly the first two; the third only feeds the mood clause. -/
theorem c7_summary_witness :
    pastSummary c7past =
      "用户说\x27" ++ "早上好" ++ "\x27时，我回复\x27" ++ "你好呀朋友" ++ "\x27" ++
        "。另外，当用户说\x27" ++ "天气" ++ "\x27时，我回复\x27" ++ "晴天真好" ++ "\x27" ++
        moodClause [⟨"早上好", "你好呀朋友", "happy"⟩, ⟨"天气", "晴天真好", "happy"⟩,
          ⟨"吃饭", "好的马上", "happy"⟩] :=
  c7_summary_first_two_survivors.2.2.2 c7past
    ⟨"早上好", "你好呀朋友", "happy"⟩ ⟨"天气", "晴天真好", "happy"⟩
    [⟨"吃饭", "好的马上", "happy"⟩] (by decide)

/-- Membership in `firstKeys` coincides with membership in the list. -/
theorem firstKeys_mem {x : String} : ∀ {l : List String}, x ∈ firstKeys l ↔ x ∈ l := by
  intro l
  induction l with
  | nil => simp [firstKeys]
  | cons m rest ih =>
    simp only [firstKeys, List.mem_cons, List.mem_filter]
    constructor
    · rintro (rfl | ⟨hx, _⟩)
      · exact Or.inl rfl
      · exact Or.inr (ih.mp hx)
    · rintro (rfl | hx)
      · exact Or.inl rfl
      · by_cases hxm : x = m
        · exact Or.inl hxm
        · refine Or.inr ⟨ih.mpr hx, ?_⟩
          rw [bne_iff_ne]
          exact hxm

/-- The keys of the tally are pairwise distinct. -/
theorem firstKeys_nodup : ∀ l : List String, (firstKeys l).Nodup := by
  intro l
  induction l with
  | nil => simp [firstKeys]
  | cons m rest ih =>
    simp only [firstKeys, List.nodup_cons]
    constructor
    · intro hc
      rcases List.mem_filter.mp hc with ⟨_, hne⟩
      simp at hne
    · exact ih.filter _

/-- Tallying one more element is one `bump`. -/
theorem tally_concat (ms : List String) (m : String) :
    tally (ms ++ [m]) = bump (tally ms) m := by
  unfold tally
  rw [List.foldl_append]
  rfl

/-- `firstKeys` over a list with one appended element. -/
theorem firstKeys_concat (l : List String) (a : String) :
    firstKeys (l ++ [a]) = if a ∈ l then firstKeys l else firstKeys l ++ [a] := by
  induction l with
  | nil => simp [firstKeys]
  | cons m rest ih =>
    by_cases ham : a = m
    · subst ham
      rw [List.cons_append]
      show a :: (firstKeys (rest ++ [a])).filter (fun k => k != a) = _
      rw [ih, if_pos (List.mem_cons_self a rest)]
      by_cases har : a ∈ rest
      · rw [if_pos har]
        rfl
      · rw [if_neg har, List.filter_append]
        have hsing : List.filter (fun k => k != a) [a] = [] := by simp
        rw [hsing, List.append_nil]
        rfl
    · have hma : ¬ (a ∈ (m :: rest)) ↔ ¬ (a ∈ rest) := by
        constructor
        · intro h hc
          exact h (List.mem_cons_of_mem m hc)
        · intro h hc
          rcases List.mem_cons.mp hc with he | hc2
          · exact ham he
          · exact h hc2
      rw [List.cons_append]
      show m :: (firstKeys (rest ++ [a])).filter (fun k => k != m) = _
      rw [ih]
      by_cases har : a ∈ rest
      · rw [if_pos har, if_pos (List.mem_cons_of_mem m har)]
        rfl
      · rw [if_neg har, if_neg (hma.mpr har)]
        rw [List.filter_append]
        have hsing : List.filter (fun k => k != m) [a] = [a] := by
          simp [bne_iff_ne]
          exact ham
        rw [hsing]
        rfl

/-- The key list after a `bump`: unchanged when the key is present,
appended otherwise. -/
theorem bump_keys (t : List (String × Nat)) (m : String) :
    (bump t m).map Prod.fst =
      if m ∈ t.map Prod.fst then t.map Prod.fst else t.map Prod.fst ++ [m] := by
  induction t with
  | nil => simp [bump]
  | cons x rest ih =>
    obtain ⟨k, n⟩ := x
    by_cases hkm : k = m
    · subst hkm
      simp [bump]
    · have hmk : ¬ m = k := fun e => hkm e.symm
      simp only [bump, if_neg hkm, List.map_cons, List.mem_cons, hmk, false_or]
      by_cases hmem : m ∈ rest.map Prod.fst
      · rw [if_pos hmem, ih, if_pos hmem]
      · rw [if_neg hmem, ih, if_neg hmem]
        rfl

/-- Lookup after a `bump`: the bumped key gains one, others unchanged. -/
theorem lookupCount_bump (t : List (String × Nat)) (m k : String) :
    lookupCount (bump t m) k =
      if k = m then some ((lookupCount t m).getD 0 + 1) else lookupCount t k := by
  induction t with
  | nil =>
    by_cases hkm : k = m
    · subst hkm
      simp [bump, lookupCount]
    · have hmk : ¬ m = k := fun e => hkm e.symm
      simp [bump, lookupCount, hkm, hmk]
  | cons x rest ih =>
    obtain ⟨k0, n0⟩ := x
    by_cases h0m : k0 = m
    · subst h0m
      by_cases h0k : k0 = k
      · subst h0k
        simp [bump, lookupCount]
      · have hk0 : ¬ k = k0 := fun e => h0k e.symm
        simp [bump, lookupCount, h0k, hk0]
    · by_cases h0k : k0 = k
      · subst h0k
        simp [bump, lookupCount, h0m]
      · simp [bump, lookupCount, h0m, h0k, ih]

/-- Lookup in the tally gives the running count of the key. -/
theorem lookupCount_tally (ms : List String) (k : String) :
    lookupCount (tally ms) k = if k ∈ ms then some (ms.count k) else none := by
  induction ms using List.reverseRecOn with
  | nil => simp [tally, lookupCount]
  | append_singleton l a ih =>
    rw [tally_concat, lookupCount_bump]
    by_cases hka : k = a
    · subst hka
      rw [if_pos rfl, ih]
      by_cases hkl : k ∈ l
      · rw [if_pos hkl, if_pos (List.mem_append_left _ hkl)]
        simp [List.count_append]
      · rw [if_neg hkl, if_pos (List.mem_append_right _ (List.mem_singleton_self k))]
        simp [List.count_append, List.count_eq_zero.mpr hkl]
    · rw [if_neg hka, ih]
      by_cases hkl : k ∈ l
      · rw [if_pos hkl, if_pos (List.mem_append_left _ hkl)]
        have hc : List.count k [a] = 0 := by
          rw [List.count_eq_zero]
          simp [hka]
        rw [List.count_append, hc, Nat.add_zero]
      · rw [if_neg hkl, if_neg ?hna]
        case hna =>
          intro hc
          rcases List.mem_append.mp hc with h1 | h2
          · exact hkl h1
          · exact hka (List.mem_singleton.mp h2)

/-- The key list of the tally is the first-occurrence list of the moods. -/
theorem tally_keys (ms : List String) : (tally ms).map Prod.fst = firstKeys ms := by
  induction ms using List.reverseRecOn with
  | nil => rfl
  | append_singleton l a ih =>
    rw [tally_concat, bump_keys, ih, firstKeys_concat]
    by_cases h : a ∈ l
    · rw [if_pos (firstKeys_mem.mpr h), if_pos h]
    · rw [if_neg (fun hc => h (firstKeys_mem.mp hc)), if_neg h]

/-- In an association list with distinct keys every entry is found by
lookup. -/
theorem lookup_of_mem_nodup : ∀ t : List (String × Nat),
    (t.map Prod.fst).Nodup → ∀ p ∈ t, lookupCount t p.1 = some p.2 := by
  intro t
  induction t with
  | nil =>
    intro _ p hp
    cases hp
  | cons x rest ih =>
    intro hn p hp
    obtain ⟨k, n⟩ := x
    rw [List.map_cons, List.nodup_cons] at hn
    rcases List.mem_cons.mp hp with rfl | hmem
    · simp [lookupCount]
    · have hne : ¬ k = p.1 := by
        intro he
        apply hn.1
        rw [he]
        exact List.mem_map.mpr ⟨p, hmem, rfl⟩
      show (if k = p.1 then some n else lookupCount rest p.1) = some p.2
      rw [if_neg hne]
      exact ih hn.2 p hmem

/-- An association list whose entries are determined by their keys is the
map of its key list. -/
theorem assoc_eq_map : ∀ (t : List (String × Nat)) (f : String → Nat),
    (∀ p ∈ t, p.2 = f p.1) → t = (t.map Prod.fst).map (fun k => (k, f k)) := by
  intro t f
  induction t with
  | nil =>
    intro _
    rfl
  | cons x rest ih =>
    intro h
    obtain ⟨k, n⟩ := x
    have h1 : n = f k := h (k, n) (List.mem_cons_self _ _)
    have h2 := ih (fun p hp => h p (List.mem_cons_of_mem _ hp))
    rw [List.map_cons, List.map_cons, ← h2, ← h1]

/-- The tally is exactly the first-occurrence key list paired with the
counts over the whole mood list. -/
theorem tally_eq_map (ms : List String) :
    tally ms = (firstKeys ms).map (fun k => (k, ms.count k)) := by
  have h : ∀ p ∈ tally ms, p.2 = ms.count p.1 := by
    intro p hp
    have hk : p.1 ∈ firstKeys ms := by
      rw [← tally_keys]
      exact List.mem_map_of_mem Prod.fst hp
    have hm : p.1 ∈ ms := firstKeys_mem.mp hk
    have hl := lookup_of_mem_nodup (tally ms)
      (by rw [tally_keys]; exact firstKeys_nodup ms) p hp
    rw [lookupCount_tally, if_pos hm] at hl
    exact (Option.some.inj hl).symm
  have h2 := assoc_eq_map (tally ms) (fun k => ms.count k) h
  rw [h2, tally_keys]

/-- `find?` only depends on the values of the predicate. -/
theorem find?_congr {α : Type} {p q : α → Bool} (h : ∀ x, p x = q x) :
    ∀ l : List α, l.find? p = l.find? q := by
  intro l
  induction l with
  | nil => rfl
  | cons x rest ih =>
    by_cases hp : p x = true
    · rw [List.find?_cons_of_pos _ hp, List.find?_cons_of_pos _ ((h x).symm.trans hp)]
    · have hq : ¬ q x = true := fun hc => hp ((h x).trans hc)
      rw [List.find?_cons_of_neg _ hp, List.find?_cons_of_neg _ hq, ih]

/-- Dropping copies of a value that fails the predicate leaves `find?`
unchanged. -/
theorem find?_filter_ne {p : String → Bool} {a : String} (hpa : p a = false) :
    ∀ l : List String, (l.filter (fun k => k != a)).find? p = l.find? p := by
  intro l
  have hna : ¬ p a = true := by
    rw [hpa]
    exact Bool.false_ne_true
  induction l with
  | nil => rfl
  | cons b rest ih =>
    by_cases hba : b = a
    · subst hba
      rw [List.filter_cons_of_neg (by simp), List.find?_cons_of_neg _ hna, ih]
    · rw [List.filter_cons_of_pos (by rw [bne_iff_ne]; exact hba)]
      by_cases hpb : p b = true
      · rw [List.find?_cons_of_pos _ hpb, List.find?_cons_of_pos _ hpb]
      · rw [List.find?_cons_of_neg _ hpb, List.find?_cons_of_neg _ hpb, ih]

/-- `find?` over the first-occurrence key list agrees with `find?` over
the original list. -/
theorem find?_firstKeys (p : String → Bool) : ∀ l : List String,
    (firstKeys l).find? p = l.find? p := by
  intro l
  induction l with
  | nil => rfl
  | cons m rest ih =>
    show (m :: (firstKeys rest).filter (fun k => k != m)).find? p = _
    by_cases hpm : p m = true
    · rw [List.find?_cons_of_pos _ hpm, List.find?_cons_of_pos _ hpm]
    · have hpm2 : p m = false := by
        cases hb : p m with
        | false => rfl
        | true => exact absurd hb hpm
      rw [List.find?_cons_of_neg _ hpm, List.find?_cons_of_neg _ hpm,
        find?_filter_ne hpm2, ih]

/-- `all` over the first-occurrence key list agrees with `all` over the
original list. -/
theorem all_firstKeys (p : String → Bool) (l : List String) :
    (firstKeys l).all p = l.all p := by
  cases hall : l.all p with
  | true =>
    rw [List.all_eq_true] at hall
    rw [List.all_eq_true]
    intro x hx
    exact hall x (firstKeys_mem.mp hx)
  | false =>
    cases hfk : (firstKeys l).all p with
    | false => rfl
    | true =>
      rw [List.all_eq_true] at hfk
      have h2 : l.all p = true :=
        List.all_eq_true.mpr (fun x hx => hfk x (firstKeys_mem.mpr hx))
      rw [hall] at h2
      cases h2

/-- `all` over a mapped list. -/
theorem all_map_pair (f : String → String × Nat) (p : String × Nat → Bool) :
    ∀ l : List String, (l.map f).all p = l.all (fun b => p (f b)) := by
  intro l
  induction l with
  | nil => rfl
  | cons x rest ih => rw [List.map_cons, List.all_cons, List.all_cons, ih]

/-- `find?` over a mapped list, projected back by the first component. -/
theorem find_map_fst {f : String → String × Nat} {pb : String × Nat → Bool}
    {ps : String → Bool} (hf : ∀ k, (f k).1 = k) (hp : ∀ k, pb (f k) = ps k) :
    ∀ l : List String, ((l.map f).find? pb).map Prod.fst = l.find? ps := by
  intro l
  induction l with
  | nil => rfl
  | cons x rest ih =>
    rw [List.map_cons]
    by_cases h : pb (f x) = true
    · rw [List.find?_cons_of_pos _ h, List.find?_cons_of_pos _ ((hp x).symm.trans h)]
      show some (f x).1 = some x
      rw [hf x]
    · have hs : ¬ ps x = true := fun hc => h ((hp x).trans hc)
      rw [List.find?_cons_of_neg _ h, List.find?_cons_of_neg _ hs, ih]

/-- `find?` on a cons whose head satisfies the predicate (explicit-argument
form). -/
theorem find?_cons_pos {α : Type} (p : α → Bool) (a : α) (l : List α)
    (h : p a = true) : (a :: l).find? p = some a :=
  List.find?_cons_of_pos l h

/-- `find?` on a cons whose head fails the predicate (explicit-argument
form). -/
theorem find?_cons_neg {α : Type} (p : α → Bool) (a : α) (l : List α)
    (h : ¬ p a = true) : (a :: l).find? p = l.find? p :=
  List.find?_cons_of_neg l h

/-- `all` on a cons (explicit-argument form). -/
theorem all_cons_eq {α : Type} (p : α → Bool) (a : α) (l : List α) :
    (a :: l).all p = (p a && l.all p) := rfl

/-- The Python `max` fold returns the first pair whose count is maximal. -/
theorem foldMax_eq_find : ∀ (xs : List (String × Nat)) (x : String × Nat),
    some (foldMax x xs) =
      (x :: xs).find? (fun p => (x :: xs).all (fun q => decide (q.2 ≤ p.2))) := by
  intro xs
  induction xs with
  | nil =>
    intro x
    rw [find?_cons_pos (fun p => [x].all (fun q => decide (q.2 ≤ p.2))) x [] (by simp)]
    rfl
  | cons y ys ih =>
    intro x
    have hstep : foldMax x (y :: ys) = foldMax (if x.2 < y.2 then y else x) ys := rfl
    by_cases hxy : x.2 < y.2
    · rw [hstep, if_pos hxy, ih y]
      have hPxne : ¬ ((x :: y :: ys).all (fun q => decide (q.2 ≤ x.2)) = true) := by
        intro hal
        rw [List.all_eq_true] at hal
        have hy := hal y (by simp)
        rw [decide_eq_true_eq] at hy
        exact absurd hxy (not_lt.mpr hy)
      rw [find?_cons_neg (fun p => (x :: y :: ys).all (fun q => decide (q.2 ≤ p.2)))
        x (y :: ys) hPxne]
      apply find?_congr
      intro p
      show (y :: ys).all (fun q => decide (q.2 ≤ p.2)) =
        (x :: y :: ys).all (fun q => decide (q.2 ≤ p.2))
      rw [all_cons_eq (fun q => decide (q.2 ≤ p.2)) x (y :: ys)]
      cases hmed : (y :: ys).all (fun q => decide (q.2 ≤ p.2)) with
      | false => rw [Bool.and_false]
      | true =>
        rw [Bool.and_true]
        rw [List.all_eq_true] at hmed
        have hy := hmed y (by simp)
        rw [decide_eq_true_eq] at hy
        exact (decide_eq_true (le_of_lt (lt_of_lt_of_le hxy hy))).symm
    · rw [hstep, if_neg hxy, ih x]
      have hyx : y.2 ≤ x.2 := not_lt.mp hxy
      have hpt : ∀ p : String × Nat,
          (x :: y :: ys).all (fun q => decide (q.2 ≤ p.2)) =
            (x :: ys).all (fun q => decide (q.2 ≤ p.2)) := by
        intro p
        rw [all_cons_eq (fun q => decide (q.2 ≤ p.2)) x (y :: ys),
          all_cons_eq (fun q => decide (q.2 ≤ p.2)) y ys,
          all_cons_eq (fun q => decide (q.2 ≤ p.2)) x ys]
        cases hdx : decide (x.2 ≤ p.2) with
        | false => rw [Bool.false_and, Bool.false_and]
        | true =>
          rw [Bool.true_and, Bool.true_and]
          have hxp : x.2 ≤ p.2 := of_decide_eq_true hdx
          have hyp : decide (y.2 ≤ p.2) = true := decide_eq_true (le_trans hyx hxp)
          rw [hyp, Bool.true_and]
      by_cases hPx : (x :: ys).all (fun q => decide (q.2 ≤ x.2)) = true
      · rw [find?_cons_pos (fun p => (x :: ys).all (fun q => decide (q.2 ≤ p.2)))
          x ys hPx,
          find?_cons_pos (fun p => (x :: y :: ys).all (fun q => decide (q.2 ≤ p.2)))
          x (y :: ys) ((hpt x).trans hPx)]
      · have hPxbig : ¬ ((x :: y :: ys).all (fun q => decide (q.2 ≤ x.2)) = true) :=
          fun hc => hPx ((hpt x).symm.trans hc)
        rw [find?_cons_neg (fun p => (x :: ys).all (fun q => decide (q.2 ≤ p.2)))
          x ys hPx,
          find?_cons_neg (fun p => (x :: y :: ys).all (fun q => decide (q.2 ≤ p.2)))
          x (y :: ys) hPxbig]
        have hPy : ¬ ((x :: y :: ys).all (fun q => decide (q.2 ≤ y.2)) = true) := by
          intro hc
          apply hPx
          rw [List.all_eq_true] at hc
          rw [List.all_eq_true]
          intro q hq
          have hqmem : q ∈ x :: y :: ys := by
            rcases List.mem_cons.mp hq with rfl | hq2
            · exact List.mem_cons_self _ _
            · exact List.mem_cons_of_mem x (List.mem_cons_of_mem y hq2)
          have hqy := hc q hqmem
          rw [decide_eq_true_eq] at hqy
          rw [decide_eq_true_eq]
          exact le_trans hqy hyx
        rw [find?_cons_neg (fun p => (x :: y :: ys).all (fun q => decide (q.2 ≤ p.2)))
          y ys hPy]
        apply find?_congr
        intro p
        exact (hpt p).symm

/-- `pickMax` over the tally of a mood list is the first mood (in list
order) whose frequency is maximal: the formal content of the Python
`max(mood_counts.items(), key=...)[0]` tie-break. -/
theorem pickMax_tally_eq_firstMax (ms : List String) :
    pickMax (tally ms) = firstMaxMood ms := by
  have hA : pickMax (tally ms) =
      ((tally ms).find? (fun p => (tally ms).all (fun q => decide (q.2 ≤ p.2)))).map
        Prod.fst := by
    cases ht : tally ms with
    | nil => rfl
    | cons x xs => exact congrArg (Option.map Prod.fst) (foldMax_eq_find xs x)
  have hp : ∀ k : String,
      (((firstKeys ms).map (fun k2 => (k2, ms.count k2))).all
        (fun q => decide (q.2 ≤ ms.count k))) =
        ms.all (fun m2 => decide (ms.count m2 ≤ ms.count k)) := by
    intro k
    rw [all_map_pair, all_firstKeys]
  rw [hA, tally_eq_map ms, find_map_fst (fun k => rfl) hp (firstKeys ms),
    find?_firstKeys]
  rfl

/-- C8 counterexample: with the two surviving records of `c8past` the
moods are ["sad", "neutral"], a tie, so no mood is strictly more frequent
than every other — yet the code appends the dominant-mood clause for
"sad", because Python `max` breaks the tie towards the first inserted
key.  This refutes the claim that the clause is appended only when some
non-neutral mood is strictly most frequent. -/
theorem c8_tie_still_appends_clause :
    pastSummary c8past =
      narrativePart (filterValid c8past) ++ ("。这些对话中用户情绪主要是" ++ "sad") ∧
    ¬ ∃ m ∈ (filterValid c8past).map (fun v => v.mood), m ≠ "neutral" ∧
        ∀ m2 ∈ (filterValid c8past).map (fun v => v.mood), m2 ≠ m →
          ((filterValid c8past).map (fun v => v.mood)).count m2 <
            ((filterValid c8past).map (fun v => v.mood)).count m :=
  ⟨by decide, by decide⟩

/-- C8 amended: the dominant-mood clause is non-empty (i.e. appended to
the summary) exactly when, scanning the surviving records' moods in list
order, the first mood whose frequency is maximal among all surviving
moods is not "neutral".  A strictly most-frequent non-neutral mood always
satisfies this, but a non-neutral mood merely tied for the maximum also
does when it occurs before every other maximal mood. -/
theorem c8_amended_clause_iff_first_maximal_not_neutral (valid : List ValidResp) :
    moodClause valid ≠ "" ↔
      ∃ d, firstMaxMood (valid.map (fun v => v.mood)) = some d ∧ d ≠ "neutral" := by
  unfold moodClause
  rw [pickMax_tally_eq_firstMax]
  cases hf : firstMaxMood (valid.map (fun v => v.mood)) with
  | none =>
    show ("" : String) ≠ "" ↔ ∃ d, (none : Option String) = some d ∧ d ≠ "neutral"
    constructor
    · intro h
      exact absurd rfl h
    · rintro ⟨d, hd, _⟩
      cases hd
  | some d =>
    show (if d ≠ "neutral" then "。这些对话中用户情绪主要是" ++ d else "") ≠ "" ↔
      ∃ e, (some d : Option String) = some e ∧ e ≠ "neutral"
    by_cases hd : d = "neutral"
    · subst hd
      rw [if_neg (fun hc => hc rfl)]
      constructor
      · intro h
        exact absurd rfl h
      · rintro ⟨e, he, hne⟩
        exact absurd (Option.some.inj he).symm hne
    · rw [if_pos hd]
      constructor
      · intro _
        exact ⟨d, rfl, hd⟩
      · intro _
        exact append_ne_empty_left _ _ (by decide)
